import Mathlib

/-!
# Verification of the Indeed job-listing scraper

A shallow embedding, in Lean 4, of the scraping pipeline in `scraper.py` and
`main.py`:

* Python string primitives used by the code (`str.split`, `str.strip`,
  `str.lower`, `str.replace`, `int(...)`, the regexes `K.*?in` (IGNORECASE)
  and `\s+` used via `re.sub`);
* the location decomposition `split_work_format_and_location` of `main.py`;
* a DOM-like node model of BeautifulSoup tags with `find`, `.text` and
  `.get`, and the field extractors `extract_job_data`, `extract_date_posted`,
  `extract_job_type` of `scraper.py`;
* the harvest loop `scrape_job_data` of `scraper.py`, driven by an abstract
  page environment (wait outcomes, parsed listing boxes, pagination
  outcomes), and `search_jobs` (URL construction and job-count lookup).

Fallible Python code (expressions that can raise) is modelled with `Option`:
a `none` result stands for an uncaught exception.
-/

/-! ## Python string primitives -/

/-- The whitespace characters recognised by Python `str.split()`, `str.strip()`
and the regex class `\s` (ASCII part). -/
def isPySpace (c : Char) : Bool :=
  c == ' ' || c == '\t' || c == '\n' || c == '\r' || c == '\x0b' || c == '\x0c'

/-- Drop trailing whitespace characters (the right half of Python `str.strip()`). -/
def stripRight : List Char → List Char
  | [] => []
  | c :: cs =>
    match stripRight cs with
    | [] => if isPySpace c then [] else [c]
    | r :: rs => c :: r :: rs

/-- Python `str.strip()`: drop leading and trailing whitespace. -/
def pyStrip (s : List Char) : List Char :=
  stripRight (s.dropWhile isPySpace)

/-- Python `str.strip()` on `String`. -/
def pyStripS (s : String) : String :=
  String.mk (pyStrip s.data)

/-- Worker for whitespace collapsing: `b` records whether the previously
emitted character came from a whitespace run. Models `re.sub(r'\s+', ' ', s)`:
every maximal run of whitespace becomes a single `' '`. -/
def collapseWsAux : Bool → List Char → List Char
  | _, [] => []
  | prevWs, c :: cs =>
    if isPySpace c then
      if prevWs then collapseWsAux true cs
      else ' ' :: collapseWsAux true cs
    else c :: collapseWsAux false cs

/-- `re.sub(r'\s+', ' ', s)`. -/
def collapseWs (s : List Char) : List Char :=
  collapseWsAux false s

/-- The cleanup step of `split_work_format_and_location`:
`re.sub(r'\s+', ' ', location_string).strip()`. -/
def cleanupWs (s : List Char) : List Char :=
  pyStrip (collapseWs s)

/-- `cleanupWs` on `String`. -/
def cleanupWsS (s : String) : String :=
  String.mk (cleanupWs s.data)

/-- Worker for Python `str.split()` (no argument): split on whitespace runs,
discarding empty pieces. `cur` is the reversed word currently being read. -/
def pyWordsAux (cur : List Char) : List Char → List (List Char)
  | [] => if cur.isEmpty then [] else [cur.reverse]
  | c :: cs =>
    if isPySpace c then
      if cur.isEmpty then pyWordsAux [] cs
      else cur.reverse :: pyWordsAux [] cs
    else pyWordsAux (c :: cur) cs

/-- Python `str.split()` (no argument). -/
def pyWords (s : List Char) : List (List Char) :=
  pyWordsAux [] s

/-- Python `str.replace(c, '')` for a one-character needle: remove every
occurrence of `c`. -/
def removeChar (c : Char) (s : List Char) : List Char :=
  s.filter (fun d => d ≠ c)

/-- Case-insensitive character comparison, as done by `str.lower()` /
`re.IGNORECASE` on ASCII letters. -/
def ciEq (a b : Char) : Bool :=
  a.toLower == b.toLower

/-- If `pat` is a case-insensitive prefix of `s`, return the rest of `s`
after that prefix. -/
def dropCIPre : List Char → List Char → Option (List Char)
  | [], s => some s
  | _ :: _, [] => none
  | p :: ps, c :: cs => if ciEq p c then dropCIPre ps cs else none

/-- Python `pat.lower() in s.lower()`: case-insensitive substring test. -/
def containsCI (pat : List Char) : List Char → Bool
  | [] => (dropCIPre pat []).isSome
  | c :: cs => (dropCIPre pat (c :: cs)).isSome || containsCI pat cs

/-- Parse a nonempty digit sequence (with the single-underscore-between-digits
rule of Python numeric literals), accumulating into `acc`. -/
def pyDigitsAux (acc : Nat) : List Char → Option Nat
  | [] => some acc
  | '_' :: d :: rest =>
    if d.isDigit then pyDigitsAux (acc * 10 + (d.toNat - 48)) rest else none
  | '_' :: [] => none
  | d :: rest =>
    if d.isDigit then pyDigitsAux (acc * 10 + (d.toNat - 48)) rest else none

/-- Parse a nonempty digit sequence; the first character must be a digit. -/
def pyDigits : List Char → Option Nat
  | [] => none
  | c :: cs => if c.isDigit then pyDigitsAux (c.toNat - 48) cs else none

/-- Python `int(s)` on a string: strip whitespace, optional sign, then a
nonempty digit sequence; `none` models `ValueError`. -/
def pythonInt (s : String) : Option Int :=
  match pyStrip s.data with
  | '+' :: rest => (pyDigits rest).map Int.ofNat
  | '-' :: rest => (pyDigits rest).map (fun n => -(n : Int))
  | rest => (pyDigits rest).map Int.ofNat

/-! ## The regex `f'{format}.*?in'` with `re.IGNORECASE`, used via `re.sub`

The pattern is a literal keyword `K`, then a non-greedy `.*?` (which cannot
cross a newline), then the literal `in`.  `re.sub(pat, '', s)` removes every
non-overlapping leftmost-then-shortest match, scanning left to right. -/

/-- Find the shortest split `u = mid ++ "in" ++ rest` (case-insensitive `in`)
with no newline in `mid`, returning `rest`; models `.*?in` anchored at the
start of `u`. -/
def seekIn : List Char → Option (List Char)
  | [] => none
  | c :: cs =>
    match dropCIPre ['i', 'n'] (c :: cs) with
    | some rest => some rest
    | none => if c == '\n' then none else seekIn cs

/-- Try to match `K.*?in` (IGNORECASE) at the start of `s`; on success return
the remainder of `s` after the match. -/
def matchKIn (K : List Char) (s : List Char) : Option (List Char) :=
  match dropCIPre K s with
  | none => none
  | some rest => seekIn rest

/-- Fuelled worker for `re.sub(f'{K}.*?in', '', s, flags=re.IGNORECASE)`:
at each position, remove a match if one starts here, else keep the character
and move on. `s.length` fuel is always enough. -/
def subKInAux (K : List Char) : Nat → List Char → List Char
  | 0, s => s
  | _ + 1, [] => []
  | fuel + 1, c :: cs =>
    match matchKIn K (c :: cs) with
    | some rest => subKInAux K fuel rest
    | none => c :: subKInAux K fuel cs

/-- `re.sub(f'{K}.*?in', '', s, flags=re.IGNORECASE)`. -/
def subKIn (K : List Char) (s : List Char) : List Char :=
  subKInAux K s.length s

/-- Is there a case-insensitive occurrence of `in` anywhere in `s`? -/
def suffixHasIn : List Char → Bool
  | [] => false
  | c :: cs => (dropCIPre ['i', 'n'] (c :: cs)).isSome || suffixHasIn cs

/-- Is there a case-insensitive occurrence of `in` starting at or after the
end of some case-insensitive occurrence of the keyword `K` in `s`? -/
def afterKeywordHasIn (K : List Char) : List Char → Bool
  | [] => false
  | c :: cs =>
    (match dropCIPre K (c :: cs) with
     | some rest => suffixHasIn rest
     | none => false) || afterKeywordHasIn K cs

/-- Does `K.*?in` match starting at some position of `s`? -/
def existsMatchPos (K : List Char) : List Char → Bool
  | [] => false
  | c :: cs => (matchKIn K (c :: cs)).isSome || existsMatchPos K cs

/-! ## `split_work_format_and_location` (main.py) -/

/-- The keyword list `work_formats` of `split_work_format_and_location`. -/
def work_formats : List String := ["Hybrid", "Remote", "In Person"]

/-- The `for format in work_formats: ...` loop body of
`split_work_format_and_location`: the first keyword contained
(case-insensitively) in the string sets the work format and triggers the
substitution-plus-strip; `break` stops at the first hit. -/
def decomposeAux : List String → List Char → String × List Char
  | [], s => ("Unknown", s)
  | k :: ks, s =>
    if containsCI k.data s then (k, pyStrip (subKIn k.data s))
    else decomposeAux ks s

/-- `split_work_format_and_location(location_string)` from `main.py`. -/
def split_work_format_and_location (location_string : String) : String × String :=
  let p := decomposeAux work_formats location_string.data
  (p.1, String.mk (cleanupWs p.2))

/-- The first keyword of `work_formats` contained case-insensitively in `s`. -/
def firstFormat (s : List Char) : Option String :=
  work_formats.find? (fun k => containsCI k.data s)


/-! ## Whitespace-cleanup lemmas (for C8) -/

/-- Is the head of the list (if any) a non-whitespace character? -/
def headNonSpace : List Char → Bool
  | [] => true
  | c :: _ => !isPySpace c

/-- Well-formed collapsed text: every whitespace character is a single `' '`
followed by a non-whitespace character (or the end). -/
def okWs : List Char → Bool
  | [] => true
  | c :: cs => (if isPySpace c then c == ' ' && headNonSpace cs else true) && okWs cs

theorem okWs_cons (c : Char) (cs : List Char) :
    okWs (c :: cs) =
      ((if isPySpace c then c == ' ' && headNonSpace cs else true) && okWs cs) := rfl

theorem stripRight_cons (c : Char) (cs : List Char) :
    stripRight (c :: cs) =
      (match stripRight cs with
       | [] => if isPySpace c then [] else [c]
       | r :: rs => c :: r :: rs) := rfl

theorem collapseWsAux_cons (b : Bool) (c : Char) (cs : List Char) :
    collapseWsAux b (c :: cs) =
      (if isPySpace c then
        (if b then collapseWsAux true cs else ' ' :: collapseWsAux true cs)
       else c :: collapseWsAux false cs) := rfl

theorem headNonSpace_collapseWsAux_true (s : List Char) :
    headNonSpace (collapseWsAux true s) = true := by
  induction s with
  | nil => rfl
  | cons c cs ih =>
    rw [collapseWsAux_cons]
    by_cases h : isPySpace c = true
    · simpa [h] using ih
    · simp [h, headNonSpace]

theorem okWs_collapseWsAux (s : List Char) : ∀ b, okWs (collapseWsAux b s) = true := by
  induction s with
  | nil => intro b; rfl
  | cons c cs ih =>
    intro b
    rw [collapseWsAux_cons]
    by_cases h : isPySpace c = true
    · cases b with
      | true => simpa [h] using ih true
      | false =>
        simp only [h, if_true, if_false, Bool.false_eq_true]
        rw [okWs_cons]
        simp [headNonSpace_collapseWsAux_true, ih true]
    · simp only [h, if_false, Bool.false_eq_true]
      rw [okWs_cons]
      simp [h, ih false]

theorem okWs_tail {c : Char} {cs : List Char} (h : okWs (c :: cs) = true) :
    okWs cs = true := by
  rw [okWs_cons, Bool.and_eq_true] at h
  exact h.2

theorem okWs_dropWhile {s : List Char} (h : okWs s = true) :
    okWs (s.dropWhile isPySpace) = true := by
  induction s with
  | nil => simpa using h
  | cons c cs ih =>
    by_cases hc : isPySpace c = true
    · simp only [List.dropWhile_cons, hc, if_true]
      exact ih (okWs_tail h)
    · simpa [List.dropWhile_cons, hc] using h

theorem stripRight_cases (c : Char) (cs : List Char) :
    stripRight (c :: cs) = [] ∨ ∃ r, stripRight (c :: cs) = c :: r := by
  rw [stripRight_cons]
  cases stripRight cs with
  | nil =>
    by_cases h : isPySpace c = true
    · left; simp [h]
    · right; exact ⟨[], by simp [h]⟩
  | cons r rs => right; exact ⟨r :: rs, rfl⟩

theorem headNonSpace_stripRight {s : List Char} (h : headNonSpace s = true) :
    headNonSpace (stripRight s) = true := by
  cases s with
  | nil => rfl
  | cons c cs =>
    rcases stripRight_cases c cs with h1 | ⟨r, h1⟩
    · simp [h1, headNonSpace]
    · rw [h1]; simpa [headNonSpace] using h

theorem stripRight_head_eq {c : Char} {cs r : List Char} {d : Char}
    (h : stripRight (c :: cs) = d :: r) : d = c := by
  rcases stripRight_cases c cs with h1 | ⟨r', h1⟩
  · rw [h1] at h; exact absurd h (by simp)
  · rw [h1] at h; injection h with h2 _; exact h2.symm

theorem okWs_stripRight {s : List Char} (h : okWs s = true) :
    okWs (stripRight s) = true := by
  induction s with
  | nil => simpa using h
  | cons c cs ih =>
    have hcs : okWs cs = true := okWs_tail h
    have hok : okWs (stripRight cs) = true := ih hcs
    rw [stripRight_cons]
    cases hsr : stripRight cs with
    | nil =>
      by_cases hc : isPySpace c = true <;> simp [hc, okWs, headNonSpace]
    | cons r rs =>
      rw [hsr] at hok
      rw [okWs_cons, Bool.and_eq_true]
      refine ⟨?_, hok⟩
      by_cases hc : isPySpace c = true
      · simp only [hc, if_true, Bool.and_eq_true]
        rw [okWs_cons, Bool.and_eq_true] at h
        rw [hc] at h
        simp only [if_true, Bool.and_eq_true] at h
        refine ⟨h.1.1, ?_⟩
        cases cs with
        | nil => exact absurd hsr (by simp [stripRight])
        | cons d ds =>
          have hd : r = d := stripRight_head_eq hsr
          have hhd : headNonSpace (d :: ds) = true := h.1.2
          simpa [headNonSpace, hd] using hhd
      · simp [hc]

theorem headNonSpace_dropWhile (s : List Char) :
    headNonSpace (s.dropWhile isPySpace) = true := by
  induction s with
  | nil => rfl
  | cons c cs ih =>
    by_cases hc : isPySpace c = true
    · simpa [List.dropWhile_cons, hc] using ih
    · simp [List.dropWhile_cons, hc, headNonSpace]

theorem dropWhile_of_headNonSpace {s : List Char} (h : headNonSpace s = true) :
    s.dropWhile isPySpace = s := by
  cases s with
  | nil => rfl
  | cons c cs =>
    simp only [headNonSpace, Bool.not_eq_true'] at h
    simp [List.dropWhile_cons, h]

theorem stripRight_idem (s : List Char) : stripRight (stripRight s) = stripRight s := by
  induction s with
  | nil => rfl
  | cons c cs ih =>
    cases hsr : stripRight cs with
    | nil =>
      have h1 : stripRight (c :: cs) = if isPySpace c then [] else [c] := by
        rw [stripRight_cons, hsr]
      by_cases hc : isPySpace c = true
      · rw [h1]; simp [hc, stripRight]
      · rw [h1]; simp [hc, stripRight]
    | cons r rs =>
      rw [hsr] at ih
      have h1 : stripRight (c :: cs) = c :: r :: rs := by
        rw [stripRight_cons, hsr]
      rw [h1, stripRight_cons, ih]

theorem collapseWsAux_of_okWs (t : List Char) (h : okWs t = true) :
    collapseWsAux false t = t ∧ (headNonSpace t = true → collapseWsAux true t = t) := by
  induction t with
  | nil => exact ⟨rfl, fun _ => rfl⟩
  | cons c cs ih =>
    have hcs : okWs cs = true := okWs_tail h
    by_cases hc : isPySpace c = true
    · rw [okWs_cons, Bool.and_eq_true, hc] at h
      simp only [if_true, Bool.and_eq_true] at h
      have hsp : c = ' ' := by simpa using h.1.1
      have hhd : headNonSpace cs = true := h.1.2
      have htr : collapseWsAux true cs = cs := ((ih hcs).2) hhd
      constructor
      · subst hsp
        rw [collapseWsAux_cons]
        simp [hc, htr]
      · intro hcontra
        rw [headNonSpace, hc] at hcontra
        simp at hcontra
    · have hf : collapseWsAux false cs = cs := (ih hcs).1
      constructor
      · rw [collapseWsAux_cons]; simp [hc, hf]
      · intro _; rw [collapseWsAux_cons]; simp [hc, hf]

theorem okWs_cleanupWs (s : List Char) : okWs (cleanupWs s) = true :=
  okWs_stripRight (okWs_dropWhile (okWs_collapseWsAux s false))

theorem headNonSpace_cleanupWs (s : List Char) : headNonSpace (cleanupWs s) = true :=
  headNonSpace_stripRight (headNonSpace_dropWhile (collapseWs s))

/-- The cleanup step of `split_work_format_and_location` is idempotent. -/
theorem cleanupWs_idem (s : List Char) : cleanupWs (cleanupWs s) = cleanupWs s := by
  have hok : okWs (cleanupWs s) = true := okWs_cleanupWs s
  have hcol : collapseWs (cleanupWs s) = cleanupWs s :=
    (collapseWsAux_of_okWs _ hok).1
  show pyStrip (collapseWs (cleanupWs s)) = cleanupWs s
  rw [hcol]
  show stripRight ((cleanupWs s).dropWhile isPySpace) = cleanupWs s
  rw [dropWhile_of_headNonSpace (headNonSpace_cleanupWs s)]
  exact stripRight_idem _

/-! ## No-match lemmas for `re.sub(f'{K}.*?in', ...)` (for C9) -/

theorem suffixHasIn_of_seekIn {u r : List Char} (h : seekIn u = some r) :
    suffixHasIn u = true := by
  induction u with
  | nil => exact absurd h (by simp [seekIn])
  | cons c cs ih =>
    rw [seekIn] at h
    rw [suffixHasIn]
    cases hd : dropCIPre ['i', 'n'] (c :: cs) with
    | some rest => simp [hd]
    | none =>
      rw [hd] at h
      simp only at h
      by_cases hnl : c == '\n'
      · rw [if_pos hnl] at h; exact absurd h (by simp)
      · rw [if_neg hnl] at h
        simp [hd, ih h]

theorem afterKeyword_of_existsMatch {K s : List Char}
    (h : existsMatchPos K s = true) : afterKeywordHasIn K s = true := by
  induction s with
  | nil => simp [existsMatchPos] at h
  | cons c cs ih =>
    rw [existsMatchPos, Bool.or_eq_true] at h
    rw [afterKeywordHasIn, Bool.or_eq_true]
    rcases h with h | h
    · left
      rw [Option.isSome_iff_exists] at h
      obtain ⟨r, hr⟩ := h
      rw [matchKIn] at hr
      cases hd : dropCIPre K (c :: cs) with
      | none => rw [hd] at hr; exact absurd hr (by simp)
      | some rest =>
        rw [hd] at hr
        simp only at hr
        simp [suffixHasIn_of_seekIn hr]
    · right; exact ih h

theorem subKInAux_of_noMatch {K : List Char} :
    ∀ (s : List Char) (fuel : Nat), existsMatchPos K s = false →
      s.length ≤ fuel → subKInAux K fuel s = s := by
  intro s
  induction s with
  | nil => intro fuel _ _; cases fuel <;> rfl
  | cons c cs ih =>
    intro fuel h hfuel
    rw [existsMatchPos, Bool.or_eq_false_iff] at h
    cases fuel with
    | zero => simp at hfuel
    | succ f =>
      rw [subKInAux]
      cases hm : matchKIn K (c :: cs) with
      | some rest => rw [hm] at h; simp at h
      | none =>
        simp only
        rw [ih f h.2 (by simpa using hfuel)]

/-- If no case-insensitive `in` occurs at or after the end of any occurrence
of `K`, the substitution `re.sub(f'{K}.*?in', '', s)` leaves `s` unchanged. -/
theorem subKIn_of_noAfter {K s : List Char}
    (h : afterKeywordHasIn K s = false) : subKIn K s = s := by
  have hm : existsMatchPos K s = false := by
    cases he : existsMatchPos K s with
    | false => rfl
    | true => rw [afterKeyword_of_existsMatch he] at h; exact absurd h (by simp)
  exact subKInAux_of_noMatch s s.length hm le_rfl

/-- `decomposeAux` returns the first keyword found by `List.find?`, together
with the stripped substitution result. -/
theorem decomposeAux_of_find (ks : List String) (s : List Char) (k : String)
    (h : ks.find? (fun k => containsCI k.data s) = some k) :
    decomposeAux ks s = (k, pyStrip (subKIn k.data s)) := by
  induction ks with
  | nil => exact absurd h (by simp)
  | cons k' ks ih =>
    by_cases hk : containsCI k'.data s = true
    · have he := List.find?_cons_of_pos (p := fun k => containsCI k.data s) ks hk
      rw [he] at h
      injection h with h
      subst h
      rw [decomposeAux, if_pos hk]
    · have he := List.find?_cons_of_neg (p := fun k => containsCI k.data s) ks
        (by simpa using hk)
      rw [he] at h
      rw [decomposeAux, if_neg (by simpa using hk)]
      exact ih h

/-! ## Claims about `split_work_format_and_location` -/

/-- C4: the decomposition checks the keywords in the fixed order Hybrid,
Remote, In Person (case-insensitively); the first keyword found sets the work
format (later keywords are not consulted), a no-keyword string keeps its text
with only whitespace cleanup, and the two cited examples hold:
`decompose("Remote in Austin, TX") = ("Remote", "Austin, TX")` and
`decompose("New York, NY") = ("Unknown", "New York, NY")`. -/
theorem claim_C4 :
    split_work_format_and_location "Remote in Austin, TX" = ("Remote", "Austin, TX") ∧
    split_work_format_and_location "New York, NY" = ("Unknown", "New York, NY") ∧
    (∀ s : String, containsCI "Hybrid".data s.data = true →
      (split_work_format_and_location s).1 = "Hybrid") ∧
    (∀ s : String, containsCI "Hybrid".data s.data = false →
      containsCI "Remote".data s.data = true →
      (split_work_format_and_location s).1 = "Remote") ∧
    (∀ s : String, containsCI "Hybrid".data s.data = false →
      containsCI "Remote".data s.data = false →
      containsCI "In Person".data s.data = true →
      (split_work_format_and_location s).1 = "In Person") ∧
    (∀ s : String, containsCI "Hybrid".data s.data = false →
      containsCI "Remote".data s.data = false →
      containsCI "In Person".data s.data = false →
      split_work_format_and_location s = ("Unknown", cleanupWsS s)) := by
  refine ⟨by decide, by decide, ?_, ?_, ?_, ?_⟩
  · intro s h1
    simp [split_work_format_and_location, work_formats, decomposeAux, h1]
  · intro s h1 h2
    simp [split_work_format_and_location, work_formats, decomposeAux, h1, h2]
  · intro s h1 h2 h3
    simp [split_work_format_and_location, work_formats, decomposeAux, h1, h2, h3]
  · intro s h1 h2 h3
    simp [split_work_format_and_location, work_formats, decomposeAux, h1, h2, h3,
      cleanupWsS]

/-- Witness for C4: a concrete input satisfying the hypotheses of the
keyword-order clauses. -/
theorem claim_C4_witness :
    containsCI "Hybrid".data "Hybrid office".data = true ∧
    (split_work_format_and_location "Hybrid office").1 = "Hybrid" :=
  ⟨by decide, claim_C4.2.2.1 "Hybrid office" (by decide)⟩

/-- C8: the whitespace-cleanup step of the decomposition (collapse every run
of whitespace to a single space, then trim) is idempotent on every input
string, and `decompose(" Hybrid   work in  Boston , MA ") =
("Hybrid", "Boston , MA")`. -/
theorem claim_C8 :
    (∀ s : String, cleanupWsS (cleanupWsS s) = cleanupWsS s) ∧
    split_work_format_and_location " Hybrid   work in  Boston , MA " =
      ("Hybrid", "Boston , MA") := by
  constructor
  · intro s
    show String.mk (cleanupWs (String.mk (cleanupWs s.data)).data) = String.mk (cleanupWs s.data)
    rw [show (String.mk (cleanupWs s.data)).data = cleanupWs s.data from rfl,
      cleanupWs_idem]
  · decide

/-- C9: whenever the location string contains a work-format keyword but no
case-insensitive `in` occurs at or after (the end of) an occurrence of that
keyword, the work format is still set to the matched keyword while the
substitution removes nothing, so the output location is just the cleaned-up
input (keyword included); the terminating `in` of the pattern is a bare
substring match, possibly inside a word — `decompose("Remote") =
("Remote", "Remote")` and `decompose("Remote working") = ("Remote", "g")`. -/
theorem claim_C9 :
    (∀ (s k : String), firstFormat s.data = some k →
        afterKeywordHasIn k.data s.data = false →
        split_work_format_and_location s = (k, String.mk (cleanupWs (pyStrip s.data)))) ∧
    split_work_format_and_location "Remote" = ("Remote", "Remote") ∧
    split_work_format_and_location "Remote working" = ("Remote", "g") := by
  refine ⟨?_, by decide, by decide⟩
  intro s k hfind hno
  have hd : decomposeAux work_formats s.data = (k, pyStrip (subKIn k.data s.data)) :=
    decomposeAux_of_find _ _ _ hfind
  have hsub : subKIn k.data s.data = s.data := subKIn_of_noAfter hno
  simp [split_work_format_and_location, hd, hsub, cleanupWs]

/-- Witness for C9: the concrete input `"Remote"` satisfies both hypotheses
of the universal clause. -/
theorem claim_C9_witness :
    firstFormat "Remote".data = some "Remote" ∧
    afterKeywordHasIn "Remote".data "Remote".data = false ∧
    split_work_format_and_location "Remote" =
      ("Remote", String.mk (cleanupWs (pyStrip "Remote".data))) :=
  ⟨by decide, by decide, claim_C9.1 "Remote" "Remote" (by decide) (by decide)⟩

/-! ## DOM-like node model (BeautifulSoup tags)

A `Node` is either a text fragment (`NavigableString`) or an element with a
tag name, an attribute list (the `class` attribute stored under `"class"`),
and children. `Forest` is the children list, kept as a separate inductive so
all recursions below are structural. -/

mutual
inductive Node : Type where
  | txt (s : String) : Node
  | elem (tag : String) (attrs : List (String × String)) (children : Forest) : Node
inductive Forest : Type where
  | nil : Forest
  | cons (hd : Node) (tl : Forest) : Forest
end

mutual
/-- BeautifulSoup `.text` / `get_text()`: the concatenation of every text
fragment in the subtree, in document order. -/
def Node.allText : Node → String
  | .txt s => s
  | .elem _ _ cs => Forest.allText cs

/-- `.text` over a children list. -/
def Forest.allText : Forest → String
  | .nil => ""
  | .cons n ns => Node.allText n ++ Forest.allText ns
end

mutual
/-- Pre-order search for the first node (this node or a descendant, in
document order) satisfying `p`. -/
def Node.findSelfOrDesc (p : Node → Bool) : Node → Option Node
  | .txt s => if p (.txt s) then some (.txt s) else none
  | .elem t a cs =>
    if p (.elem t a cs) then some (.elem t a cs) else Forest.findFirst p cs

/-- Pre-order search over a children list. -/
def Forest.findFirst (p : Node → Bool) : Forest → Option Node
  | .nil => none
  | .cons n ns =>
    match Node.findSelfOrDesc p n with
    | some r => some r
    | none => Forest.findFirst p ns
end

/-- The children list of a node. -/
def Node.childrenOf : Node → Forest
  | .txt _ => .nil
  | .elem _ _ cs => cs

/-- BeautifulSoup `box.find(...)`: search the descendants of `box` (excluding
`box` itself) in document order for the first node matching `p`. -/
def bsFind (p : Node → Bool) (box : Node) : Option Node :=
  Forest.findFirst p (Node.childrenOf box)

/-- BeautifulSoup `.get(key)`: attribute lookup on an element (first binding
wins); `none` on a text node or a missing attribute. -/
def Node.getAttr (n : Node) (key : String) : Option String :=
  match n with
  | .txt _ => none
  | .elem _ attrs _ => attrs.lookup key

/-- Does the node have the given tag name (text nodes match no tag)? -/
def tagIs (t : String) (n : Node) : Bool :=
  match n with
  | .txt _ => false
  | .elem tg _ _ => tg == t

/-- BeautifulSoup `class_='c'` for a single class token `c`: the node's
`class` attribute, split on whitespace, contains the token. -/
def hasClassToken (cls : String) (n : Node) : Bool :=
  match n.getAttr "class" with
  | none => false
  | some cstr => (pyWords cstr.data).contains cls.data

/-- BeautifulSoup `class_='c1 c2'` for a query containing whitespace: the
whole `class` attribute string must be exactly equal to the query. -/
def classAttrIs (cls : String) (n : Node) : Bool :=
  n.getAttr "class" == some cls

/-! ## Field extractors (scraper.py) -/

/-- Matcher for `box.find('a')`. -/
def mAnchor (n : Node) : Bool := tagIs "a" n

/-- Matcher for `box.find('a', class_='jcs-JobTitle')`. -/
def mTitle (n : Node) : Bool := tagIs "a" n && hasClassToken "jcs-JobTitle" n

/-- Matcher for `box.find('span', {'data-testid': 'company-name'})`. -/
def mCompany (n : Node) : Bool :=
  tagIs "span" n && (n.getAttr "data-testid" == some "company-name")

/-- Matcher for `box.find('span', class_='date')`. -/
def mDateLegacy (n : Node) : Bool := tagIs "span" n && hasClassToken "date" n

/-- Matcher for `box.find('span', {'data-testid': 'myJobsStateDate'})`. -/
def mDateMyJobs (n : Node) : Bool :=
  tagIs "span" n && (n.getAttr "data-testid" == some "myJobsStateDate")

/-- Matcher for `box.find('span', {'data-testid': 'job-age'})`. -/
def mDateJobAge (n : Node) : Bool :=
  tagIs "span" n && (n.getAttr "data-testid" == some "job-age")

/-- Matcher for `box.find('div', {'data-testid': 'text-location'})`. -/
def mLocation (n : Node) : Bool :=
  tagIs "div" n && (n.getAttr "data-testid" == some "text-location")

/-- Matcher for `box.find('div', class_='metadata salary-snippet-container')`
(a multi-class query: exact class-attribute string match). -/
def mSalary (n : Node) : Bool :=
  tagIs "div" n && classAttrIs "metadata salary-snippet-container" n

/-- Matcher for `box.find('div', class_='metadata')`. -/
def mMetadata (n : Node) : Bool := tagIs "div" n && hasClassToken "metadata" n

/-- The output record of `extract_job_data` (one row of the DataFrame). -/
structure Job where
  link : String
  jobTitle : String
  company : String
  datePosted : String
  location : String
  salary : String
  jobType : String
deriving Repr, DecidableEq

/-- `extract_date_posted(box)` from `scraper.py`: the first present element
among the three date candidates, stripped; else `'N/A'`. -/
def extract_date_posted (box : Node) : String :=
  match bsFind mDateLegacy box with
  | some el => pyStripS el.allText
  | none =>
    match bsFind mDateMyJobs box with
    | some el => pyStripS el.allText
    | none =>
      match bsFind mDateJobAge box with
      | some el => pyStripS el.allText
      | none => "N/A"

/-- Python `pat in s` on strings: case-sensitive contiguous substring test. -/
def containsSub (pat : List Char) : List Char → Bool
  | [] => pat.isPrefixOf []
  | c :: cs => pat.isPrefixOf (c :: cs) || containsSub pat cs

/-- `extract_job_type(box)` from `scraper.py`: the metadata element's text,
stripped and lower-cased, substring-matched against `full-time` then
`part-time`; else `'Unknown'`. -/
def extract_job_type (box : Node) : String :=
  match bsFind mMetadata box with
  | none => "Unknown"
  | some el =>
    let t := (pyStrip el.allText.data).map Char.toLower
    if containsSub "full-time".data t then "Full-time"
    else if containsSub "part-time".data t then "Part-time"
    else "Unknown"

/-- `extract_job_data(box, country)` from `scraper.py`. The `link` field has
no fallback: `box.find('a').get('href')` raises (`none` here) when no anchor
exists or the anchor has no `href` attribute; every other field falls back to
its sentinel. -/
def extract_job_data (box : Node) (country : String) : Option Job :=
  match bsFind mAnchor box with
  | none => none
  | some a =>
    match a.getAttr "href" with
    | none => none
    | some href =>
      some
        { link := country ++ href
          jobTitle :=
            match bsFind mTitle box with
            | some el => pyStripS el.allText
            | none => "N/A"
          company :=
            match bsFind mCompany box with
            | some el => pyStripS el.allText
            | none => "N/A"
          datePosted := extract_date_posted box
          location :=
            match bsFind mLocation box with
            | some el => pyStripS el.allText
            | none => "N/A"
          salary :=
            match bsFind mSalary box with
            | some el => pyStripS el.allText
            | none => "N/A"
          jobType := extract_job_type box }

/-! ## Claims about the field extractor -/

/-- A listing node with no anchor element at all: `box.find('a')` is `None`,
so `box.find('a').get('href')` raises `AttributeError`. -/
def boxNoAnchor : Node :=
  Node.elem "div" [("class", "job_seen_beacon")]
    (Forest.cons (Node.txt "Software Engineer") Forest.nil)

/-- A listing node whose only sub-element is a bare anchor with an `href`:
every optional field is absent. -/
def anchorOnly : Node := Node.elem "a" [("href", "/j1")] Forest.nil

/-- A box containing only `anchorOnly`. -/
def boxAnchorOnly : Node :=
  Node.elem "div" [("class", "job_seen_beacon")] (Forest.cons anchorOnly Forest.nil)

/-- C2 counterexample: on a listing node with no anchor element, the field
extractor raises (`none` in this model) instead of returning a record, so it
is not total. -/
theorem claim_C2_counterexample :
    extract_job_data boxNoAnchor "https://www.indeed.com" = none := rfl

/-- C2 (amended): whenever the node has an anchor carrying an `href`
attribute, the field extractor returns a record (its link being the base URL
concatenated with that `href`); every optional field falls back independently
(see the C3 theorem), but a missing anchor or missing `href` raises. -/
theorem claim_C2_amended : ∀ (box : Node) (c : String) (a : Node) (href : String),
    bsFind mAnchor box = some a → a.getAttr "href" = some href →
    ∃ j, extract_job_data box c = some j ∧ j.link = c ++ href := by
  intro box c a href ha hh
  simp only [extract_job_data, ha, hh]
  exact ⟨_, rfl, rfl⟩

/-- Witness for the amended C2 at a concrete node. -/
theorem claim_C2_amended_witness :
    ∃ j, extract_job_data boxAnchorOnly "https://b" = some j ∧
      j.link = "https://b" ++ "/j1" :=
  claim_C2_amended boxAnchorOnly "https://b" anchorOnly "/j1" rfl rfl

/-- Unfolding of `extract_job_data` when the anchor and its `href` are
present. -/
theorem extract_job_data_of_anchor (box : Node) (c : String) (a : Node)
    (href : String) (ha : bsFind mAnchor box = some a)
    (hh : a.getAttr "href" = some href) :
    extract_job_data box c = some
      { link := c ++ href
        jobTitle :=
          match bsFind mTitle box with
          | some el => pyStripS el.allText
          | none => "N/A"
        company :=
          match bsFind mCompany box with
          | some el => pyStripS el.allText
          | none => "N/A"
        datePosted := extract_date_posted box
        location :=
          match bsFind mLocation box with
          | some el => pyStripS el.allText
          | none => "N/A"
        salary :=
          match bsFind mSalary box with
          | some el => pyStripS el.allText
          | none => "N/A"
        jobType := extract_job_type box } := by
  simp only [extract_job_data, ha, hh]

/-- Unfolding of `extract_job_data` when no anchor is present: the extractor
raises. -/
theorem extract_job_data_of_no_anchor (box : Node) (c : String)
    (ha : bsFind mAnchor box = none) : extract_job_data box c = none := by
  simp only [extract_job_data, ha]

/-- Unfolding of `extract_job_data` when the anchor has no `href` attribute:
the extractor raises. -/
theorem extract_job_data_of_no_href (box : Node) (c : String) (a : Node)
    (ha : bsFind mAnchor box = some a) (hh : a.getAttr "href" = none) :
    extract_job_data box c = none := by
  simp only [extract_job_data, ha, hh]

/-- C3: whenever extraction succeeds, each optional field falls back to its
sentinel when its sub-element is absent (`N/A`, or `Unknown` for the job
type; the date falls back when all three candidate elements are absent), and
every field is a function of its own element lookup alone, so the other
fields are unaffected by one field's absence. -/
theorem claim_C3 : ∀ (box : Node) (c : String) (j : Job),
    extract_job_data box c = some j →
    (bsFind mCompany box = none → j.company = "N/A") ∧
    (bsFind mTitle box = none → j.jobTitle = "N/A") ∧
    (bsFind mDateLegacy box = none → bsFind mDateMyJobs box = none →
      bsFind mDateJobAge box = none → j.datePosted = "N/A") ∧
    (bsFind mLocation box = none → j.location = "N/A") ∧
    (bsFind mSalary box = none → j.salary = "N/A") ∧
    (bsFind mMetadata box = none → j.jobType = "Unknown") ∧
    (∀ (box' : Node) (j' : Job), extract_job_data box' c = some j' →
      (bsFind mTitle box = bsFind mTitle box' → j.jobTitle = j'.jobTitle) ∧
      (bsFind mCompany box = bsFind mCompany box' → j.company = j'.company) ∧
      (bsFind mDateLegacy box = bsFind mDateLegacy box' →
        bsFind mDateMyJobs box = bsFind mDateMyJobs box' →
        bsFind mDateJobAge box = bsFind mDateJobAge box' →
        j.datePosted = j'.datePosted) ∧
      (bsFind mLocation box = bsFind mLocation box' → j.location = j'.location) ∧
      (bsFind mSalary box = bsFind mSalary box' → j.salary = j'.salary) ∧
      (bsFind mMetadata box = bsFind mMetadata box' → j.jobType = j'.jobType)) := by
  intro box c j h
  cases ha : bsFind mAnchor box with
  | none =>
    rw [extract_job_data_of_no_anchor box c ha] at h
    exact absurd h (by simp)
  | some a =>
    cases hh : a.getAttr "href" with
    | none =>
      rw [extract_job_data_of_no_href box c a ha hh] at h
      exact absurd h (by simp)
    | some href =>
      rw [extract_job_data_of_anchor box c a href ha hh] at h
      simp only [Option.some.injEq] at h
      subst h
      refine ⟨?_, ?_, ?_, ?_, ?_, ?_, ?_⟩
      · intro hc; simp [hc]
      · intro hc; simp [hc]
      · intro h1 h2 h3; simp [extract_date_posted, h1, h2, h3]
      · intro hc; simp [hc]
      · intro hc; simp [hc]
      · intro hc; simp [extract_job_type, hc]
      · intro box' j' h'
        cases ha' : bsFind mAnchor box' with
        | none =>
          rw [extract_job_data_of_no_anchor box' c ha'] at h'
          exact absurd h' (by simp)
        | some a' =>
          cases hh' : a'.getAttr "href" with
          | none =>
            rw [extract_job_data_of_no_href box' c a' ha' hh'] at h'
            exact absurd h' (by simp)
          | some href' =>
            rw [extract_job_data_of_anchor box' c a' href' ha' hh'] at h'
            simp only [Option.some.injEq] at h'
            subst h'
            refine ⟨?_, ?_, ?_, ?_, ?_, ?_⟩
            · intro he; simp [he]
            · intro he; simp [he]
            · intro h1 h2 h3; simp [extract_date_posted, h1, h2, h3]
            · intro he; simp [he]
            · intro he; simp [he]
            · intro he; simp [extract_job_type, he]

/-- Witness for C3: a node with an anchor and no optional sub-elements gets
the company sentinel. -/
theorem claim_C3_witness :
    bsFind mCompany boxAnchorOnly = none ∧
    extract_job_data boxAnchorOnly "https://b" =
      some ⟨"https://b/j1", "N/A", "N/A", "N/A", "N/A", "N/A", "Unknown"⟩ ∧
    (⟨"https://b/j1", "N/A", "N/A", "N/A", "N/A", "N/A", "Unknown"⟩ : Job).company = "N/A" := by
  refine ⟨rfl, rfl, ?_⟩
  exact (claim_C3 boxAnchorOnly "https://b" _ rfl).1 rfl

/-! ## `search_jobs` (scraper.py)

Browser interaction is abstracted into a `SearchEnv`: whether the 20-second
wait for the count-or-no-result indicator succeeded, and the text of the
job-count element if it is present (`none` models `NoSuchElementException`). -/

/-- Abstract outcome of the browser interactions in `search_jobs`. -/
structure SearchEnv where
  waitOk : Bool
  countText : Option String

/-- `search_jobs(driver, country, job_position, job_location, days_since)`
from `scraper.py`: returns the constructed URL and the job-count string.
The second component is `none` when the code raises (an `IndexError` from
`job_count_element.text.split()[0]` on an empty/whitespace-only text — only
`NoSuchElementException` is caught). -/
def search_jobs (env : SearchEnv) (country job_position job_location : String)
    (days_since : Int) : String × Option String :=
  let full_url :=
    country ++ "/jobs?q=" ++
      String.intercalate "+" ((pyWords job_position.data).map String.mk) ++
      "&l=" ++ job_location ++ "&fromage=" ++ toString days_since
  if env.waitOk = false then (full_url, some "Unknown")
  else
    match env.countText with
    | none => (full_url, some "Unknown")
    | some txt =>
      match pyWords txt.data with
      | [] => (full_url, none)
      | tok :: _ => (full_url, some (String.mk (removeChar '+' (removeChar ',' tok))))

/-! ## `scrape_job_data` (scraper.py)

The harvest loop is driven by an abstract `PageEnv` giving, for each
iteration `i` of the outer `while True` loop: the outcome of each of the
(up to 3) content-wait attempts, the listing boxes parsed from the page, and
whether `navigate_to_next_page` succeeds. The loop is written with explicit
fuel; `ScrapeResult.diverge` means the loop had not terminated within the
given step budget. -/

/-- Abstract outcomes of the browser interactions in one run of the harvest
loop. `wait i k` is the result of the `k`-th content-wait attempt (of 3) in
iteration `i`; `boxes i` the `job_seen_beacon` nodes parsed in iteration `i`;
`hasNext i` the result of `navigate_to_next_page`. -/
structure PageEnv where
  wait : Nat → Nat → Bool
  boxes : Nat → List Node
  hasNext : Nat → Bool

/-- Result of a harvest-loop run: a normal return (`rows`), an uncaught
exception (`err`), or fuel exhaustion (`diverge`). -/
inductive ScrapeResult : Type where
  | ok (rows : List Job)
  | err
  | diverge
deriving Repr, DecidableEq

/-- The per-box extraction of the `for box in boxes:` loop: extract each box
in order, appending to the frame; a raise from `extract_job_data` propagates
(`none`). -/
def extractAll (boxes : List Node) (country : String) : Option (List Job) :=
  match boxes with
  | [] => some []
  | b :: bs =>
    match extract_job_data b country with
    | none => none
    | some j =>
      match extractAll bs country with
      | none => none
      | some js => some (j :: js)

/-- The stop check
`job_count >= max_jobs or (total_jobs != "Unknown" and job_count >= int(total_jobs))`
of `scrape_job_data`; `none` models the `ValueError` raised by
`int(total_jobs)` on a malformed count string. -/
def stopCheck (total_jobs : String) (job_count : Nat) : Option Bool :=
  if 15000 ≤ job_count then some true
  else if total_jobs = "Unknown" then some false
  else
    match pythonInt total_jobs with
    | none => none
    | some n => some (n ≤ (job_count : Int))

/-- Did the content-wait retry loop (`for retry in range(3)`) reach a
successful attempt in iteration `i`? If not, all 3 attempts timed out and
the function returns the accumulated frame. -/
def contentWaitOk (env : PageEnv) (i : Nat) : Bool :=
  (List.range 3).any (fun k => env.wait i k)

/-- The `while True:` harvest loop of `scrape_job_data`, one iteration per
fuel unit: wait for content (3 attempts; on exhaustion return the
accumulator), extract all boxes of the page, run the stop check, then
paginate or finish. -/
def harvestLoop (env : PageEnv) (country total_jobs : String) :
    Nat → Nat → List Job → ScrapeResult
  | 0, _, _ => .diverge
  | fuel + 1, i, acc =>
    if contentWaitOk env i = false then .ok acc
    else
      match extractAll (env.boxes i) country with
      | none => .err
      | some rows =>
        let acc2 := acc ++ rows
        match stopCheck total_jobs acc2.length with
        | none => .err
        | some true => .ok acc2
        | some false =>
          if env.hasNext i then harvestLoop env country total_jobs fuel (i + 1) acc2
          else .ok acc2

/-- `scrape_job_data(driver, country, total_jobs)` from `scraper.py`, with
`fuel` bounding the number of loop iterations observed. -/
def scrape_job_data (env : PageEnv) (country total_jobs : String)
    (fuel : Nat) : ScrapeResult :=
  harvestLoop env country total_jobs fuel 0 []

/-! ## Harvest-loop lemmas -/

/-- Extraction preserves the page size: one row per listing box. -/
theorem extractAll_length {boxes : List Node} {c : String} :
    ∀ {rows : List Job}, extractAll boxes c = some rows →
      rows.length = boxes.length := by
  induction boxes with
  | nil =>
    intro rows h
    simp only [extractAll, Option.some.injEq] at h
    subst h
    rfl
  | cons b bs ih =>
    intro rows h
    simp only [extractAll] at h
    cases he : extract_job_data b c with
    | none => rw [he] at h; simp at h
    | some j =>
      rw [he] at h
      cases hr : extractAll bs c with
      | none => rw [hr] at h; simp at h
      | some js =>
        rw [hr] at h
        simp only [Option.some.injEq] at h
        subst h
        simp [ih hr]

/-- A `false` stop check means the running count is below the ceiling. -/
theorem stopCheck_false_lt {t : String} {n : Nat}
    (h : stopCheck t n = some false) : n < 15000 := by
  by_contra hn
  push_neg at hn
  simp only [stopCheck] at h
  rw [if_pos hn] at h
  simp at h

/-- Any normally returned frame has at most `14999 + P` rows, where `P`
bounds the per-page listing count, provided the accumulator is below the
ceiling on entry. -/
theorem harvest_ok_length {env : PageEnv} {c t : String} {P : Nat}
    (hP : ∀ i, (env.boxes i).length ≤ P) :
    ∀ (fuel i : Nat) (acc rows : List Job), acc.length ≤ 14999 →
      harvestLoop env c t fuel i acc = .ok rows → rows.length ≤ 14999 + P := by
  intro fuel
  induction fuel with
  | zero => intro i acc rows _ h; simp [harvestLoop] at h
  | succ f ih =>
    intro i acc rows hacc h
    simp only [harvestLoop] at h
    split at h
    · injection h with h
      subst h
      omega
    · split at h
      · exact absurd h (by simp)
      · rename_i rows2 heq
        split at h
        · exact absurd h (by simp)
        · rename_i hsc
          injection h with h
          subst h
          have h2 : rows2.length = (env.boxes i).length := extractAll_length heq
          have h3 := hP i
          simp only [List.length_append]
          omega
        · rename_i hsc
          split at h
          · exact ih (i + 1) _ rows
              (by
                have := stopCheck_false_lt hsc
                omega)
              h
          · injection h with h
            subst h
            have := stopCheck_false_lt hsc
            omega

/-- If every page yields at least one listing, the loop cannot consume more
than `15000` iterations: with enough fuel it never exhausts it. -/
theorem harvest_no_diverge {env : PageEnv} {c t : String}
    (hmin : ∀ i, 1 ≤ (env.boxes i).length) :
    ∀ (fuel i : Nat) (acc : List Job), acc.length < 15000 →
      15000 < acc.length + fuel →
      harvestLoop env c t fuel i acc ≠ .diverge := by
  intro fuel
  induction fuel with
  | zero => intro i acc h1 h2; omega
  | succ f ih =>
    intro i acc h1 h2 h
    simp only [harvestLoop] at h
    split at h
    · exact absurd h (by simp)
    · split at h
      · exact absurd h (by simp)
      · rename_i rows heq
        split at h
        · exact absurd h (by simp)
        · exact absurd h (by simp)
        · rename_i hsc
          split at h
          · refine ih (i + 1) _ (stopCheck_false_lt hsc) ?_ h
            have h2' : rows.length = (env.boxes i).length := extractAll_length heq
            have h3 := hmin i
            simp only [List.length_append]
            omega
          · exact absurd h (by simp)

/-! ## Claims about the harvest loop and search -/

/-- The record extracted from `boxAnchorOnly` with base URL `https://c`. -/
def jobAnchorOnly : Job :=
  ⟨"https://c/j1", "N/A", "N/A", "N/A", "N/A", "N/A", "Unknown"⟩

/-- Extraction over a page of `n` copies of `boxAnchorOnly`. -/
theorem extractAll_replicate (n : Nat) :
    extractAll (List.replicate n boxAnchorOnly) "https://c" =
      some (List.replicate n jobAnchorOnly) := by
  induction n with
  | zero => rfl
  | succ m ih =>
    rw [List.replicate_succ, List.replicate_succ]
    simp only [extractAll,
      show extract_job_data boxAnchorOnly "https://c" = some jobAnchorOnly from rfl, ih]

/-- An environment whose first page holds 15001 listings (waits succeed,
no further page). -/
def envBig : PageEnv :=
  ⟨fun _ _ => true, fun _ => List.replicate 15001 boxAnchorOnly, fun _ => false⟩

/-- One-iteration unfolding of the harvest loop when the wait succeeds,
extraction succeeds, and the stop check fires. -/
theorem harvestLoop_stop {env : PageEnv} {c t : String} {fuel i : Nat}
    {acc rows : List Job} (hw : contentWaitOk env i = true)
    (hx : extractAll (env.boxes i) c = some rows)
    (hs : stopCheck t (acc ++ rows).length = some true) :
    harvestLoop env c t (fuel + 1) i acc = .ok (acc ++ rows) := by
  simp only [harvestLoop, hw, hx, hs]
  simp

/-- C1 counterexample: with an unknown expected count, a single page of
15001 listings makes the loop return 15001 rows, exceeding
`max(expectedCount, 15000) = 15000` — the stop check only runs after a whole
page is appended, so the bound in the claim fails. -/
theorem claim_C1_counterexample :
    scrape_job_data envBig "https://c" "Unknown" 1 =
      .ok (List.replicate 15001 jobAnchorOnly) ∧
    Nat.max 0 15000 < (List.replicate 15001 jobAnchorOnly).length := by
  constructor
  · show harvestLoop envBig "https://c" "Unknown" (0 + 1) 0 [] = _
    have hx : extractAll (envBig.boxes 0) "https://c" =
        some (List.replicate 15001 jobAnchorOnly) := extractAll_replicate 15001
    have hs : stopCheck "Unknown"
        (([] : List Job) ++ List.replicate 15001 jobAnchorOnly).length =
        some true := by
      rw [List.nil_append, List.length_replicate]
      rfl
    have hw : contentWaitOk envBig 0 = true := rfl
    rw [harvestLoop_stop hw hx hs, List.nil_append]
  · rw [List.length_replicate]
    decide

/-- C1 (amended): if every page yields at most `P` listings, any normally
returned collection has length at most `14999 + P` (the stop check runs only
after appending a whole page, so the 15000 ceiling can be overshot by at most
one page); and if additionally every page yields at least one listing, the
loop terminates — normally or by raising — within 15001 iterations.  Without
the latter hypothesis the loop can run forever (empty pages never advance the
count). -/
theorem claim_C1_amended : ∀ (env : PageEnv) (country total_jobs : String) (P : Nat),
    (∀ i, (env.boxes i).length ≤ P) →
    ((∀ fuel rows, scrape_job_data env country total_jobs fuel = .ok rows →
        rows.length ≤ 14999 + P) ∧
      ((∀ i, 1 ≤ (env.boxes i).length) →
        ∀ fuel, 15001 ≤ fuel →
          scrape_job_data env country total_jobs fuel ≠ .diverge)) := by
  intro env c t P hP
  constructor
  · intro fuel rows h
    exact harvest_ok_length hP fuel 0 [] rows (by simp) h
  · intro hmin fuel hfuel
    refine harvest_no_diverge hmin fuel 0 [] (by simp) ?_
    simp only [List.length_nil]
    omega

/-- An environment with exactly one listing per page and endless pagination. -/
def envOneBox : PageEnv :=
  ⟨fun _ _ => true, fun _ => [boxAnchorOnly], fun _ => true⟩

/-- Witness for the amended C1: with one listing per page the loop does not
exhaust 15001 iterations of fuel. -/
theorem claim_C1_amended_witness :
    scrape_job_data envOneBox "https://c" "Unknown" 15001 ≠ .diverge :=
  (claim_C1_amended envOneBox "https://c" "Unknown" 1
      (fun i => by simp [envOneBox])).2
    (fun i => by simp [envOneBox]) 15001 (le_refl 15001)

/-- C5: if the three content-wait attempts of an iteration all time out, the
harvest loop returns exactly the accumulator collected so far instead of
raising. -/
theorem claim_C5 : ∀ (env : PageEnv) (country total_jobs : String)
    (fuel i : Nat) (acc : List Job),
    env.wait i 0 = false → env.wait i 1 = false → env.wait i 2 = false →
    harvestLoop env country total_jobs (fuel + 1) i acc = .ok acc := by
  intro env c t fuel i acc h0 h1 h2
  have hw : contentWaitOk env i = false := by
    simp [contentWaitOk, show List.range 3 = [0, 1, 2] from rfl, h0, h1, h2]
  simp [harvestLoop, hw]

/-- An environment in which every wait attempt times out. -/
def envAllTimeout : PageEnv :=
  ⟨fun _ _ => false, fun _ => [], fun _ => false⟩

/-- Witness for C5: a run whose first iteration exhausts its three attempts
returns the (empty) accumulator. -/
theorem claim_C5_witness :
    envAllTimeout.wait 0 0 = false ∧
    harvestLoop envAllTimeout "https://c" "Unknown" (4 + 1) 0 [] = .ok [] :=
  ⟨rfl, claim_C5 envAllTimeout "https://c" "Unknown" 4 0 [] rfl rfl rfl⟩

/-- C6: the search URL is the base URL with the whitespace-separated query
terms joined by `+` and the location and `fromage` recency parameters
appended; in particular
`search("https://example.com", "senior cook", "Denver", 5)` resolves to
`https://example.com/jobs?q=senior+cook&l=Denver&fromage=5`. -/
theorem claim_C6 :
    (∀ (env : SearchEnv) (c q l : String) (d : Int),
      (search_jobs env c q l d).1 =
        c ++ "/jobs?q=" ++
          String.intercalate "+" ((pyWords q.data).map String.mk) ++
          "&l=" ++ l ++ "&fromage=" ++ toString d) ∧
    (∀ env : SearchEnv,
      (search_jobs env "https://example.com" "senior cook" "Denver" 5).1 =
        "https://example.com/jobs?q=senior+cook&l=Denver&fromage=5") := by
  have hurl : ∀ (env : SearchEnv) (c q l : String) (d : Int),
      (search_jobs env c q l d).1 =
        c ++ "/jobs?q=" ++
          String.intercalate "+" ((pyWords q.data).map String.mk) ++
          "&l=" ++ l ++ "&fromage=" ++ toString d := by
    intro env c q l d
    by_cases hw : env.waitOk = false
    · simp [search_jobs, hw]
    · cases hc : env.countText with
      | none => simp [search_jobs, hw, hc]
      | some txt =>
        cases ht : pyWords txt.data with
        | nil => simp [search_jobs, hw, hc, ht]
        | cons tok toks => simp [search_jobs, hw, hc, ht]
  refine ⟨hurl, ?_⟩
  intro env
  rw [hurl]
  decide

/-- C7 counterexample: a present count indicator whose text is whitespace
only makes `job_count_element.text.split()[0]` raise `IndexError` (only
`NoSuchElementException` is caught), so `search_jobs` raises (`none`)
instead of falling back to `"Unknown"`. -/
theorem claim_C7_counterexample :
    (search_jobs ⟨true, some "   "⟩ "https://c" "IT" "all" 0).2 = none := rfl

/-- C7 (amended): when the 20-second wait times out or the count indicator
element is absent, `search_jobs` falls back to the `"Unknown"` sentinel; when
the indicator is present and its text has a first whitespace-delimited token,
that token with all `,` and `+` characters removed is returned verbatim (no
numeric validation); but when the indicator is present with an empty or
whitespace-only text, the token lookup raises instead of falling back. -/
theorem claim_C7_amended : ∀ (c q l : String) (d : Int) (txt : String),
    (search_jobs ⟨false, some txt⟩ c q l d).2 = some "Unknown" ∧
    (search_jobs ⟨true, none⟩ c q l d).2 = some "Unknown" ∧
    (pyWords txt.data = [] → (search_jobs ⟨true, some txt⟩ c q l d).2 = none) ∧
    (∀ tok toks, pyWords txt.data = tok :: toks →
      (search_jobs ⟨true, some txt⟩ c q l d).2 =
        some (String.mk (removeChar '+' (removeChar ',' tok)))) := by
  intro c q l d txt
  refine ⟨by simp [search_jobs], by simp [search_jobs], ?_, ?_⟩
  · intro h
    simp [search_jobs, h]
  · intro tok toks h
    simp [search_jobs, h]

/-- Witness for the amended C7: the count text `"1,234+ jobs found"` yields
the cleaned token `"1234"`. -/
theorem claim_C7_amended_witness :
    pyWords "1,234+ jobs found".data =
      "1,234+".data :: ["jobs".data, "found".data] ∧
    (search_jobs ⟨true, some "1,234+ jobs found"⟩ "https://c" "IT" "all" 0).2 =
      some "1234" := by
  refine ⟨by decide, ?_⟩
  have h := (claim_C7_amended "https://c" "IT" "all" 0 "1,234+ jobs found").2.2.2
    "1,234+".data ["jobs".data, "found".data] (by decide)
  rw [h]
  decide

/-- C10: when the expected-count string is neither `"Unknown"` nor parseable
by `int()`, any run whose first iteration reaches the stop check below the
ceiling raises `ValueError` (`err`) at that first stop check instead of
returning a result — the loop's totality presupposes that `total_jobs` is
`"Unknown"` or parses as an integer. -/
theorem claim_C10 : ∀ (env : PageEnv) (country total_jobs : String)
    (rows : List Job) (fuel : Nat),
    total_jobs ≠ "Unknown" → pythonInt total_jobs = none →
    contentWaitOk env 0 = true →
    extractAll (env.boxes 0) country = some rows →
    rows.length < 15000 →
    scrape_job_data env country total_jobs (fuel + 1) = .err := by
  intro env c t rows fuel ht hp hw hx hlen
  have hs : stopCheck t (([] : List Job) ++ rows).length = none := by
    rw [List.nil_append]
    simp only [stopCheck, hp]
    rw [if_neg (by omega), if_neg ht]
  show harvestLoop env c t (fuel + 1) 0 [] = .err
  simp only [harvestLoop, hw, hx, hs]
  simp

/-- An environment whose waits succeed and whose pages are empty. -/
def envEmptyPages : PageEnv :=
  ⟨fun _ _ => true, fun _ => [], fun _ => false⟩

/-- Witness for C10: the malformed count string `"N/A"` makes the run raise
at the first stop check. -/
theorem claim_C10_witness :
    ("N/A" : String) ≠ "Unknown" ∧ pythonInt "N/A" = none ∧
    scrape_job_data envEmptyPages "https://c" "N/A" (0 + 1) = .err :=
  ⟨by decide, by decide,
    claim_C10 envEmptyPages "https://c" "N/A" [] 0 (by decide) (by decide)
      rfl rfl (by decide)⟩
